import Mathlib

/-!
Shallow embedding of the TamTap offline-tolerant persistence layer
(src/hardware/database.py, src/hardware/register.py).

Conventions of the embedding:
* Python strings are modelled as `List Char`; string literals appear as
  `"...".toList`.
* Python `int(s)` is modelled by `py_int`, returning `none` when the call
  would raise `ValueError` (only plain digit strings are modelled; the
  system only ever feeds digit strings to `int`).
* Functions that can raise an exception that escapes to the caller return
  `Option _`, with `none` standing for the raised exception.
* Network effects (the schedule fetch, MongoDB calls) are made explicit:
  the fetched schedule is a parameter, and the remote store is part of the
  `Database` state together with a `remoteOk` flag.  `remoteOk = true`
  models "the connection check and every remote call in this operation
  succeed"; `remoteOk = false` models both a failed `_check_mongodb` and a
  remote call raising (the Python code reacts identically to both: it
  falls through to the JSON cache).
-/

namespace TamTap

/-- Python `str.split(sep)` for a one-character separator, on `List Char`. -/
def splitCh (sep : Char) : List Char → List (List Char)
  | [] => [[]]
  | c :: rest =>
    match splitCh sep rest with
    | [] => [[]]
    | h :: t => if c = sep then [] :: h :: t else (c :: h) :: t

/-- Python `int(s)` on a string of decimal digits; `none` models the
`ValueError` raised on anything else (signs, spaces and underscores that
CPython would also accept never occur in this system's inputs). -/
def py_int (s : List Char) : Option Nat :=
  if s.isEmpty then none
  else if s.all (fun c => c.isDigit) then
    some (s.foldl (fun n c => n * 10 + (c.toNat - 48)) 0)
  else none

/-- `startsWithL p s` is true when `p` is an initial segment of `s`; this is
the meaning of the MongoDB query `{date: {regex: caret + p}}` used by the
source for date-prefix matching. -/
def startsWithL : List Char → List Char → Bool
  | [], _ => true
  | _ :: _, [] => false
  | p :: ps, c :: cs => p == c && startsWithL ps cs

-- Constants from src/hardware/database.py (lines 62-66).
def DEFAULT_START_TIME : List Char := "07:00".toList
def DEFAULT_END_TIME : List Char := "17:00".toList
def DEFAULT_GRACE_PERIOD : Nat := 20
def DEFAULT_ABSENT_THRESHOLD : Nat := 60
def EARLY_BUFFER_MINUTES : Nat := 30

/-- `time_to_minutes` (database.py lines 76-83).  `none` input models Python
`None`; the result is `none` exactly when `int()` would raise. -/
def time_to_minutes (t : Option (List Char)) : Option Nat :=
  match t with
  | none => some 0
  | some s =>
    if s.isEmpty then some 0
    else
      let parts := splitCh ':' s
      match py_int (parts.headD []) with
      | none => none
      | some hours =>
        if 1 < parts.length then
          match py_int (parts.getD 1 []) with
          | none => none
          | some minutes => some (hours * 60 + minutes)
        else
          some (hours * 60)

/-- The `schedule` sub-dictionary of an API response; `none` fields model
absent keys (and Python `None` values, which the source treats the same
way through falsiness checks and `.get` defaults). -/
structure Sched where
  start : Option (List Char)
  endT : Option (List Char)
deriving DecidableEq

/-- A schedule API response as consumed by the source. -/
structure SchedData where
  schedule : Option Sched
  grace_period_minutes : Option Nat
  absent_threshold_minutes : Option Nat
deriving DecidableEq

/-- `DeclineReason` (database.py lines 70-73). -/
inductive DeclineReason where
  | NO_CLASSES_TODAY
  | TOO_EARLY
  | CLASSES_ENDED
deriving DecidableEq

/-- Python falsiness of an optional string: `None` and `""` are falsy. -/
def blankOpt (o : Option (List Char)) : Bool :=
  match o with
  | none => true
  | some s => s.isEmpty

/-- The default dictionary returned by `validate_tap_time` when no schedule
could be fetched (database.py lines 137-141). -/
def defaultSchedData : SchedData :=
  { schedule := some { start := some DEFAULT_START_TIME, endT := some DEFAULT_END_TIME },
    grace_period_minutes := some DEFAULT_GRACE_PERIOD,
    absent_threshold_minutes := some DEFAULT_ABSENT_THRESHOLD }

/-- `validate_tap_time` (database.py lines 119-169).  `fetched` is the value
returned by `fetch_section_schedule(section)`; the overall `none` result
models an escaping exception.  Nat subtraction in the TOO_EARLY test agrees
with Python's int subtraction because `arrival_minutes` is nonnegative:
`a < s - 30` over the integers coincides with truncated subtraction here. -/
def validate_tap_time (fetched : Option SchedData) (arrivalStr : List Char) :
    Option (Bool × Option DeclineReason × SchedData) :=
  match time_to_minutes (some arrivalStr) with
  | none => none
  | some arrival_minutes =>
    match fetched with
    | none => some (true, none, defaultSchedData)
    | some sd =>
      match sd.schedule with
      | none => some (false, some DeclineReason.NO_CLASSES_TODAY, sd)
      | some ts =>
        if blankOpt ts.start then some (false, some DeclineReason.NO_CLASSES_TODAY, sd)
        else
          match time_to_minutes ts.start with
          | none => none
          | some start_minutes =>
            match (if blankOpt ts.endT then some (start_minutes + 600)
                   else time_to_minutes ts.endT) with
            | none => none
            | some end_minutes =>
              if arrival_minutes < start_minutes - EARLY_BUFFER_MINUTES then
                some (false, some DeclineReason.TOO_EARLY, sd)
              else if end_minutes < arrival_minutes then
                some (false, some DeclineReason.CLASSES_ENDED, sd)
              else
                some (true, none, sd)

/-- `calculate_attendance_status` (database.py lines 172-219).
`schedule_data` is the schedule dictionary after the fetch-if-absent step
on line 190-191 (callers that pass `None` get the fetch result here). -/
def calculate_attendance_status (sect : List Char) (arrivalStr : List Char)
    (schedule_data : Option SchedData) : Option (List Char) :=
  match time_to_minutes (some arrivalStr) with
  | none => none
  | some arrival_minutes =>
    let sga : List Char × Nat × Nat :=
      match schedule_data with
      | some sd =>
        match sd.schedule with
        | some ts => (ts.start.getD DEFAULT_START_TIME,
                      sd.grace_period_minutes.getD DEFAULT_GRACE_PERIOD,
                      sd.absent_threshold_minutes.getD DEFAULT_ABSENT_THRESHOLD)
        | none => (DEFAULT_START_TIME, DEFAULT_GRACE_PERIOD, DEFAULT_ABSENT_THRESHOLD)
      | none => (DEFAULT_START_TIME, DEFAULT_GRACE_PERIOD, DEFAULT_ABSENT_THRESHOLD)
    match time_to_minutes (some sga.1) with
    | none => none
    | some start_minutes =>
      let late_cutoff := start_minutes + sga.2.1
      let absent_cutoff := start_minutes + sga.2.2
      some (if arrival_minutes ≤ late_cutoff then "on_time".toList
            else if arrival_minutes ≤ absent_cutoff then "late".toList
            else "absent".toList)

/-- An identity record (a student or teacher document).  Fields mirror the
dictionaries built by register.py lines 469-477 plus the fields read by
database.py; all are optional strings because the source reads them with
`.get(..., default)`.  `sect` stands for the Python key "section". -/
structure User where
  tamtap_id : Option (List Char) := none
  email : Option (List Char) := none
  first_name : Option (List Char) := none
  last_name : Option (List Char) := none
  name : Option (List Char) := none
  grade : Option (List Char) := none
  sect : Option (List Char) := none
  registered : Option (List Char) := none
deriving DecidableEq

/-- An attendance record, mirroring the dictionary built by
`save_attendance` (database.py lines 770-789).  `nfc_id`/`uid` are optional
because legacy pending records may carry `uid` instead of `nfc_id`
(database.py line 354/737). -/
structure AttRec where
  nfc_id : Option (List Char) := none
  uid : Option (List Char) := none
  name : List Char := []
  role : List Char := []
  date : List Char := []
  time : List Char := []
  photo : Option (List Char) := none
  photo_path : Option (List Char) := none
  session : List Char := []
  status : List Char := []
  tamtap_id : Option (List Char) := none
  email : Option (List Char) := none
  first_name : Option (List Char) := none
  last_name : Option (List Char) := none
  grade : Option (List Char) := none
  sect : Option (List Char) := none
deriving DecidableEq

/-- `str(record.get("nfc_id", record.get("uid", "")))` (database.py lines
354, 737, 743). -/
def recKey (r : AttRec) : List Char :=
  match r.nfc_id with
  | some s => s
  | none => r.uid.getD []

/-- The JSON cache contents (`_empty_structure`, database.py lines 257-266);
`students`/`teachers` are Python dicts modelled as association lists in
insertion order. -/
structure LocalData where
  students : List (List Char × User) := []
  teachers : List (List Char × User) := []
  attendance : List AttRec := []
  pending_attendance : List AttRec := []
  next_tamtap_id : Nat := 1
  last_sync : Option (List Char) := none
deriving DecidableEq

/-- The remote MongoDB collections; identity documents are keyed by their
`nfc_id` field. -/
structure Remote where
  students : List (List Char × User) := []
  teachers : List (List Char × User) := []
  attendance : List AttRec := []
deriving DecidableEq

/-- The `Database` object state: JSON cache, remote store, and whether the
remote is reachable (see the header comment on what `remoteOk` models). -/
structure Database where
  json : LocalData := {}
  remote : Remote := {}
  remoteOk : Bool := false
deriving DecidableEq

/-- The wall clock as read by `datetime.now()`: `day` is
`strftime("%Y-%m-%d")`, `timeStr` is `strftime("%H:%M:%S")`, `hour` is
`.hour`; `strftime("%Y-%m-%d %H:%M:%S")` is `day ++ " " ++ timeStr` by
construction of the format strings. -/
structure Clock where
  day : List Char
  timeStr : List Char
  hour : Nat

/-- `strftime("%Y-%m-%d %H:%M:%S")` of the clock. -/
def Clock.dateTime (c : Clock) : List Char := c.day ++ ' ' :: c.timeStr

/-- Association-list lookup (first match), modelling Python dict lookup
under unique keys. -/
def assocFind {V : Type} (l : List (List Char × V)) (k : List Char) : Option V :=
  match l with
  | [] => none
  | p :: rest => if p.1 = k then some p.2 else assocFind rest k

/-- Python dict assignment `d[k] = v`: overwrite in place if the key exists,
otherwise append (insertion order preserved). -/
def assocSet {V : Type} (l : List (List Char × V)) (k : List Char) (v : V) :
    List (List Char × V) :=
  if l.any (fun p => p.1 == k) then
    l.map (fun p => if p.1 == k then (k, v) else p)
  else l ++ [(k, v)]

/-- Whether a remote attendance document matches the query
`{nfc_id: key, date: {regex: caret + day}}` (database.py lines 358-361 and
724-727). -/
def remoteMatch (key day : List Char) (r : AttRec) : Bool :=
  r.nfc_id == some key && startsWithL day r.date

/-- Whether a cached attendance record matches today's key, the way the
JSON scans compare: `str(get("nfc_id", get("uid","")))` against the key and
`date[:10]` against the day (database.py lines 736-746). -/
def localMatch (key day : List Char) (r : AttRec) : Bool :=
  recKey r == key && r.date.take 10 == day

/-- `Database.is_already_logged_today` (database.py lines 716-748): the
remote check runs only when the connection check and the query succeed;
either way the JSON attendance list and the pending queue are scanned. -/
def is_already_logged_today (db : Database) (clock : Clock) (nfc : List Char) : Bool :=
  (db.remoteOk && db.remote.attendance.any (remoteMatch nfc clock.day))
    || db.json.attendance.any (localMatch nfc clock.day)
    || db.json.pending_attendance.any (localMatch nfc clock.day)

/-- `Database.get_user` (database.py lines 499-530): when the remote is
reachable the answer comes from the remote collections alone (including a
remote miss); the JSON cache is consulted only when the remote check or
query fails. -/
def get_user (db : Database) (nfc : List Char) : Option (User × List Char) :=
  if db.remoteOk then
    match assocFind db.remote.students nfc with
    | some u => some (u, "student".toList)
    | none =>
      match assocFind db.remote.teachers nfc with
      | some u => some (u, "teacher".toList)
      | none => none
  else
    match assocFind db.json.students nfc with
    | some u => some (u, "student".toList)
    | none =>
      match assocFind db.json.teachers nfc with
      | some u => some (u, "teacher".toList)
      | none => none

/-- `os.path.basename` for the photo path. -/
def basenameL (p : List Char) : List Char := (splitCh '/' p).getLastD []

/-- The attendance record built by `save_attendance` (database.py lines
770-789) for a given clock, identity and computed status. -/
def mkAttRec (clock : Clock) (nfc name role : List Char)
    (photo_path : Option (List Char)) (user_data : Option User)
    (status : List Char) : AttRec :=
  { nfc_id := some nfc
    uid := none
    name := name
    role := role
    date := clock.dateTime
    time := clock.timeStr
    photo := photo_path.map basenameL
    photo_path := photo_path
    session := if clock.hour < 12 then "AM".toList else "PM".toList
    status := status
    tamtap_id := user_data.map (fun u => u.tamtap_id.getD [])
    email := user_data.map (fun u => u.email.getD [])
    first_name := user_data.map (fun u => u.first_name.getD [])
    last_name := user_data.map (fun u => u.last_name.getD [])
    grade := user_data.map (fun u => u.grade.getD [])
    sect := user_data.map (fun u => u.sect.getD []) }

/-- `user_data.get("section", "") if user_data else ""` (database.py
line 764). -/
def sectOf (user_data : Option User) : List Char :=
  match user_data with
  | some u => u.sect.getD []
  | none => []

/-- `Database.save_attendance` (database.py lines 750-812).  `fetched` is
the schedule returned by `fetch_section_schedule` inside
`calculate_attendance_status`.  With the remote reachable the record is
inserted remotely and mirrored into the JSON `attendance` list; otherwise
(connection check failed, or the insert raised) it is appended to the JSON
pending queue.  `none` models an exception escaping from the status
computation. -/
def save_attendance (db : Database) (clock : Clock) (nfc name role : List Char)
    (photo_path : Option (List Char)) (user_data : Option User)
    (fetched : Option SchedData) : Option (Database × Bool) :=
  if is_already_logged_today db clock nfc then some (db, false)
  else
    match calculate_attendance_status (sectOf user_data) clock.timeStr fetched with
    | none => none
    | some status =>
      let record := mkAttRec clock nfc name role photo_path user_data status
      if db.remoteOk then
        some ({ db with
                  remote := { db.remote with attendance := db.remote.attendance ++ [record] }
                  json := { db.json with attendance := db.json.attendance ++ [record] } },
              true)
      else
        some ({ db with
                  json := { db.json with
                              pending_attendance := db.json.pending_attendance ++ [record] } },
              true)

/-- `Database.user_exists` (database.py lines 532-535). -/
def user_exists (db : Database) (nfc : List Char) : Bool :=
  (get_user db nfc).isSome

/-- Remote `insert_one` into an identity collection: the unique index on
`nfc_id` rejects a duplicate key, and `add_user` swallows the resulting
exception (database.py lines 556-559), so a duplicate insert leaves the
collection unchanged. -/
def remoteInsert (l : List (List Char × User)) (k : List Char) (v : User) :
    List (List Char × User) :=
  if l.any (fun p => p.1 == k) then l else l ++ [(k, v)]

/-- `Database.add_user` (database.py lines 537-568): writes the document to
the remote collection when reachable, and always writes it to the JSON
cache (dict assignment, overwriting any existing entry); the `registered`
timestamp is set by `add_user` itself. -/
def add_user (db : Database) (clock : Clock) (nfc : List Char) (u : User)
    (role : List Char) : Database :=
  let doc := { u with registered := some clock.dateTime }
  let isStudent := role == "student".toList
  let db1 :=
    if db.remoteOk then
      if isStudent then
        { db with remote := { db.remote with students := remoteInsert db.remote.students nfc doc } }
      else
        { db with remote := { db.remote with teachers := remoteInsert db.remote.teachers nfc doc } }
    else db
  if isStudent then
    { db1 with json := { db1.json with students := assocSet db1.json.students nfc doc } }
  else
    { db1 with json := { db1.json with teachers := assocSet db1.json.teachers nfc doc } }

/-- The persistence core of `register_user` (register.py lines 410-415 and
479): the duplicate check runs before anything is written, and a duplicate
badge key aborts the registration with no write to either store.  The
interactive prompting around it is not modelled. -/
def register_user (db : Database) (clock : Clock) (nfc : List Char) (u : User)
    (role : List Char) : Database × Bool :=
  if user_exists db nfc then (db, false)
  else (add_user db clock nfc u role, true)

/-- The per-record loop of `_push_pending_to_mongodb` over the pending
queue (database.py lines 352-368), processing records in order starting at
index `i`.  `failA j` says the remote find/insert for the record at index
`j` raises (the `except` branch: the record is kept for the next cycle and
the remote store is untouched).  On success the record is inserted only if
no remote document matches its key and day, and it leaves the queue either
way.  Returns (new remote attendance, `still_pending`). -/
def pushAttLoop (failA : Nat → Bool) : Nat → List AttRec → List AttRec →
    List AttRec × List AttRec
  | _, [], rem => (rem, [])
  | i, r :: rest, rem =>
    if failA i then
      ((pushAttLoop failA (i + 1) rest rem).1, r :: (pushAttLoop failA (i + 1) rest rem).2)
    else
      pushAttLoop failA (i + 1) rest
        (if rem.any (remoteMatch (recKey r) (r.date.take 10)) then rem else rem ++ [r])

/-- The identity loops of `_push_pending_to_mongodb` (database.py lines
370-388): every locally cached identity absent from the remote collection
is inserted; `failU k` says the remote call for key `k` raises (swallowed,
the identity simply stays local until the next cycle). -/
def pushUsersLoop (failU : List Char → Bool) :
    List (List Char × User) → List (List Char × User) → List (List Char × User)
  | [], rem => rem
  | p :: rest, rem =>
    if failU p.1 then pushUsersLoop failU rest rem
    else if rem.any (fun q => q.1 == p.1) then pushUsersLoop failU rest rem
    else pushUsersLoop failU rest (rem ++ [p])

/-- `Database._push_pending_to_mongodb` (database.py lines 340-395): no-op
when the remote is unreachable; otherwise pushes the pending queue, then
the cached students and teachers, and finally rewrites the JSON cache with
the records that are still pending.  The JSON identity tables and the JSON
attendance list are not touched. -/
def push_pending_to_mongodb (failA : Nat → Bool) (failS failT : List Char → Bool)
    (db : Database) : Database :=
  if db.remoteOk then
    { db with
        remote := { students := pushUsersLoop failS db.json.students db.remote.students,
                    teachers := pushUsersLoop failT db.json.teachers db.remote.teachers,
                    attendance :=
                      (pushAttLoop failA 0 db.json.pending_attendance db.remote.attendance).1 }
        json := { db.json with
                    pending_attendance :=
                      (pushAttLoop failA 0 db.json.pending_attendance db.remote.attendance).2 } }
  else db

/-- The dictionary built from a remote identity collection by
`_pull_from_mongodb` (database.py lines 410-426): documents with a falsy
`nfc_id` are skipped, the rest are entered into a fresh dict keyed by
`nfc_id` (our keys already stand for that field, with `[]` for a missing
or empty one). -/
def buildMap (docs : List (List Char × User)) : List (List Char × User) :=
  docs.foldl (fun acc p => if p.1.isEmpty then acc else assocSet acc p.1 p.2) []

/-- `Database._pull_from_mongodb` (database.py lines 400-440): when the
remote is reachable, wholesale-replace the cached identity tables with the
remote ones and stamp `last_sync`; the cached attendance list, the pending
queue and the allocator counter are left untouched.  When unreachable (or
when the remote reads raise before the final save) nothing changes. -/
def pull_from_mongodb (db : Database) (clock : Clock) : Database :=
  if db.remoteOk then
    { db with
        json := { db.json with
                    students := buildMap db.remote.students
                    teachers := buildMap db.remote.teachers
                    last_sync := some clock.dateTime } }
  else db

/-- `int(user.get("tamtap_id", 0))` as used by the allocator: a missing
field counts as 0, and an unparsable field contributes nothing to the max
(the local loop skips it via `except`, the remote aggregation's failure is
likewise swallowed), which coincides with contributing 0. -/
def tidOf (u : User) : Nat :=
  match u.tamtap_id with
  | none => 0
  | some s => (py_int s).getD 0

/-- Fold a user table into a running maximum of `tamtap_id`s. -/
def usersMaxFrom (m : Nat) (l : List (List Char × User)) : Nat :=
  l.foldl (fun acc p => max acc (tidOf p.2)) m

/-- `Database.get_next_tamtap_id` (database.py lines 642-684): scan the
remote collections (when reachable) and the cached ones for the largest
`tamtap_id`, then return `max(max_id + 1, stored_next)` where
`stored_next` is the cached `next_tamtap_id` counter. -/
def get_next_tamtap_id (db : Database) : Nat :=
  let m0 := if db.remoteOk then
      usersMaxFrom (usersMaxFrom 0 db.remote.students) db.remote.teachers
    else 0
  let m1 := usersMaxFrom m0 db.json.students
  let m2 := usersMaxFrom m1 db.json.teachers
  max (m2 + 1) db.json.next_tamtap_id

/-- A JSON value, for the raw-file model of `_load_json`. -/
inductive JVal where
  | jnull
  | jbool (b : Bool)
  | jnum (n : Nat)
  | jstr (s : List Char)
  | jarr (l : List JVal)
  | jobj (o : List (List Char × JVal))

/-- What reading the backing file can yield: no file, an unreadable or
unparsable file (`open`/`json.load` raises), or a parsed JSON value. -/
inductive FileRead where
  | missing
  | unreadable
  | content (v : JVal)

/-- Lookup in a JSON object (`none` on non-objects). -/
def jlookup (v : JVal) (k : List Char) : Option JVal :=
  match v with
  | JVal.jobj o => assocFind o k
  | _ => none

/-- Python `dict.setdefault(k, v)`: insert only when the key is absent;
a present key keeps its stored value whatever its type. -/
def setdefault (o : List (List Char × JVal)) (k : List Char) (v : JVal) :
    List (List Char × JVal) :=
  if o.any (fun p => p.1 == k) then o else o ++ [(k, v)]

/-- `Database._empty_structure` (database.py lines 257-266). -/
def empty_structure : JVal :=
  JVal.jobj [("students".toList, JVal.jobj []),
             ("teachers".toList, JVal.jobj []),
             ("attendance".toList, JVal.jarr []),
             ("pending_attendance".toList, JVal.jarr []),
             ("next_tamtap_id".toList, JVal.jnum 1),
             ("last_sync".toList, JVal.jnull)]

/-- `Database._load_json` (database.py lines 445-458).  A missing file
falls through to `_empty_structure`; any exception inside the `try` —
unreadable or unparsable file, or `setdefault` called on a parsed
non-object — is caught and also yields `_empty_structure`; a parsed object
gets the four collection keys and the counter `setdefault`ed in. -/
def load_json (f : FileRead) : JVal :=
  match f with
  | FileRead.missing => empty_structure
  | FileRead.unreadable => empty_structure
  | FileRead.content v =>
    match v with
    | JVal.jobj o =>
      let o1 := setdefault o "students".toList (JVal.jobj [])
      let o2 := setdefault o1 "teachers".toList (JVal.jobj [])
      let o3 := setdefault o2 "attendance".toList (JVal.jarr [])
      let o4 := setdefault o3 "pending_attendance".toList (JVal.jarr [])
      let o5 := setdefault o4 "next_tamtap_id".toList (JVal.jnum 1)
      JVal.jobj o5
    | _ => empty_structure

/-! ### Lemmas about the string helpers -/

lemma splitCh_ne_nil : ∀ (sep : Char) (s : List Char), splitCh sep s ≠ []
  | sep, [] => by simp [splitCh]
  | sep, c :: rest => by
    have h := splitCh_ne_nil sep rest
    unfold splitCh
    rcases he : splitCh sep rest with _ | ⟨hd, tl⟩
    · exact absurd he h
    · by_cases hc : c = sep <;> simp [hc]

lemma splitCh_no_sep (sep : Char) (s : List Char) (h : sep ∉ s) :
    splitCh sep s = [s] := by
  induction s with
  | nil => rfl
  | cons c rest ih =>
    simp only [List.mem_cons, not_or] at h
    have hcs : ¬ c = sep := fun e => h.1 e.symm
    simp only [splitCh]
    rw [ih h.2]
    simp [hcs]

lemma splitCh_sep_cons (sep : Char) (b : List Char) :
    splitCh sep (sep :: b) = [] :: splitCh sep b := by
  obtain ⟨hd, tl, he⟩ : ∃ hd tl, splitCh sep b = hd :: tl := by
    rcases e : splitCh sep b with _ | ⟨hd, tl⟩
    · exact absurd e (splitCh_ne_nil sep b)
    · exact ⟨hd, tl, rfl⟩
  simp only [splitCh]
  rw [he]
  simp

lemma splitCh_append_sep (sep : Char) (a b : List Char) (h : sep ∉ a) :
    splitCh sep (a ++ sep :: b) = a :: splitCh sep b := by
  induction a with
  | nil => simpa using splitCh_sep_cons sep b
  | cons c rest ih =>
    simp only [List.mem_cons, not_or] at h
    have hcs : ¬ c = sep := fun e => h.1 e.symm
    show splitCh sep (c :: (rest ++ sep :: b)) = _
    simp only [splitCh]
    rw [ih h.2]
    simp [hcs]

lemma startsWithL_iff : ∀ (p s : List Char), startsWithL p s = true ↔ s.take p.length = p
  | [], s => by simp [startsWithL]
  | c :: ps, [] => by simp [startsWithL]
  | c :: ps, d :: ds => by
    simp only [startsWithL, Bool.and_eq_true, beq_iff_eq, startsWithL_iff ps ds,
      List.length_cons, List.take_succ_cons, List.cons.injEq]
    exact and_congr_left (fun _ => eq_comm)

lemma startsWithL_self_append (p q : List Char) : startsWithL p (p ++ q) = true :=
  (startsWithL_iff p (p ++ q)).mpr (List.take_left p q)

lemma take_append_of_length {l : List Char} (m : List Char) {n : Nat}
    (h : l.length = n) : (l ++ m).take n = l := by
  subst h; exact List.take_left l m

/-! ### Lemmas about `time_to_minutes` -/

lemma py_int_ne_nil {s : List Char} {n : Nat} (h : py_int s = some n) : s ≠ [] := by
  intro he; subst he; simp [py_int] at h

lemma t2m_hh (hh : List Char) (H : Nat) (hp : py_int hh = some H) (hc : ':' ∉ hh) :
    time_to_minutes (some hh) = some (H * 60) := by
  have hne : hh.isEmpty = false := by
    cases hh with
    | nil => exact absurd hp (by simp [py_int])
    | cons a b => rfl
  simp only [time_to_minutes, hne, Bool.false_eq_true, if_false,
    splitCh_no_sep ':' hh hc, List.headD, hp, List.length_cons, List.length_nil]
  norm_num

lemma t2m_ss_irrel (hh mm ss : List Char) (hc1 : ':' ∉ hh) (hc2 : ':' ∉ mm) :
    time_to_minutes (some (hh ++ ':' :: (mm ++ ':' :: ss))) =
      time_to_minutes (some (hh ++ ':' :: mm)) := by
  have hne1 : (hh ++ ':' :: (mm ++ ':' :: ss)).isEmpty = false := by
    cases hh <;> rfl
  have hne2 : (hh ++ ':' :: mm).isEmpty = false := by
    cases hh <;> rfl
  have e1 : splitCh ':' (hh ++ ':' :: (mm ++ ':' :: ss)) =
      hh :: mm :: splitCh ':' ss := by
    rw [splitCh_append_sep ':' hh _ hc1, splitCh_append_sep ':' mm ss hc2]
  have e2 : splitCh ':' (hh ++ ':' :: mm) = hh :: [mm] := by
    rw [splitCh_append_sep ':' hh mm hc1, splitCh_no_sep ':' mm hc2]
  have hlen : 1 < (hh :: mm :: splitCh ':' ss).length := by
    simp [List.length_cons]
  simp only [time_to_minutes, hne1, hne2, Bool.false_eq_true, if_false, e1, e2,
    List.headD, hlen, if_true, List.getD, List.length_cons, List.length_nil,
    List.length_singleton, Nat.lt_add_one, List.get?]
  norm_num

lemma t2m_hhmm (hh mm : List Char) (H M : Nat) (hp1 : py_int hh = some H)
    (hp2 : py_int mm = some M) (hc1 : ':' ∉ hh) (hc2 : ':' ∉ mm) :
    time_to_minutes (some (hh ++ ':' :: mm)) = some (H * 60 + M) := by
  have hne : (hh ++ ':' :: mm).isEmpty = false := by
    cases hh <;> rfl
  have e2 : splitCh ':' (hh ++ ':' :: mm) = hh :: [mm] := by
    rw [splitCh_append_sep ':' hh mm hc1, splitCh_no_sep ':' mm hc2]
  simp only [time_to_minutes, hne, Bool.false_eq_true, if_false, e2,
    List.headD, hp1, List.length_cons, List.length_singleton, List.getD, List.get?]
  norm_num
  rw [hp2]

lemma t2m_hhmmss (hh mm ss : List Char) (H M : Nat) (hp1 : py_int hh = some H)
    (hp2 : py_int mm = some M) (hc1 : ':' ∉ hh) (hc2 : ':' ∉ mm) :
    time_to_minutes (some (hh ++ ':' :: (mm ++ ':' :: ss))) = some (H * 60 + M) := by
  rw [t2m_ss_irrel hh mm ss hc1 hc2, t2m_hhmm hh mm H M hp1 hp2 hc1 hc2]

/-! ### Claim C10 -/

/-- Claim C10: `time_to_minutes` is total on the inputs the system feeds it
and normalizes them: it returns 0 for `None` or an empty string, `60 * HH`
for a bare hour string with no colon, and for any `HH:MM:SS` string the
same value as for `HH:MM` — the seconds component never influences
the result (not even when the hour or minute part fails to parse). -/
theorem time_to_minutes_normalizes :
    time_to_minutes none = some 0 ∧
    time_to_minutes (some []) = some 0 ∧
    (∀ hh H, py_int hh = some H → ':' ∉ hh →
      time_to_minutes (some hh) = some (H * 60)) ∧
    (∀ hh mm ss, ':' ∉ hh → ':' ∉ mm →
      time_to_minutes (some (hh ++ ':' :: (mm ++ ':' :: ss))) =
        time_to_minutes (some (hh ++ ':' :: mm))) :=
  ⟨rfl, rfl, t2m_hh, fun hh mm ss hc1 hc2 => t2m_ss_irrel hh mm ss hc1 hc2⟩

/-- Witness for C10 at concrete inputs. -/
theorem time_to_minutes_normalizes_witness :
    time_to_minutes (some ("07".toList ++ ':' :: ("20".toList ++ ':' :: "01".toList))) =
      time_to_minutes (some ("07".toList ++ ':' :: "20".toList)) ∧
    time_to_minutes (some "7".toList) = some (7 * 60) :=
  ⟨time_to_minutes_normalizes.2.2.2 "07".toList "20".toList "01".toList
      (by decide) (by decide),
   time_to_minutes_normalizes.2.2.1 "7".toList 7 (by decide) (by decide)⟩

/-! ### Claims C6 and C7 -/

/-- The schedule the boundary claims quantify over: start 07:00, end 17:00,
grace 20 minutes, absent threshold 60 minutes. -/
def sched0700 : SchedData :=
  { schedule := some { start := some "07:00".toList, endT := some "17:00".toList },
    grace_period_minutes := some 20,
    absent_threshold_minutes := some 60 }

/-- Claim C6 counterexample: with start 07:00 and grace 20, the code
classifies an arrival of 07:20:01 as `on_time`, not `late`, because
`time_to_minutes` discards the seconds component. -/
theorem calculate_attendance_status_0720_01_on_time :
    calculate_attendance_status [] "07:20:01".toList (some sched0700) =
      some "on_time".toList ∧
    "on_time".toList ≠ "late".toList := by
  exact ⟨by decide, by decide⟩

/-- Claim C6 amended: classification happens at minute granularity — the
seconds component is discarded — and comparisons are inclusive at the
cutoff minute: with start 07:00, grace 20 and absent threshold 60, an
arrival HH:MM:SS is `on_time` when `HH*60+MM ≤ 440` (so 07:20:59 is still
`on_time`), `late` when `440 < HH*60+MM ≤ 480`, and `absent` beyond. -/
theorem calculate_attendance_status_boundaries (hh mm ss : List Char) (H M : Nat)
    (hp1 : py_int hh = some H) (hp2 : py_int mm = some M)
    (hc1 : ':' ∉ hh) (hc2 : ':' ∉ mm) :
    calculate_attendance_status [] (hh ++ ':' :: (mm ++ ':' :: ss)) (some sched0700) =
      some (if H * 60 + M ≤ 440 then "on_time".toList
            else if H * 60 + M ≤ 480 then "late".toList
            else "absent".toList) := by
  have harr := t2m_hhmmss hh mm ss H M hp1 hp2 hc1 hc2
  have hstart : time_to_minutes (some "07:00".toList) = some 420 := by decide
  simp only [calculate_attendance_status, harr, sched0700, Option.getD_some, hstart]

/-- Witness for the amended C6 at 07:20:59 (still on time). -/
theorem calculate_attendance_status_boundaries_witness :
    calculate_attendance_status []
        ("07".toList ++ ':' :: ("20".toList ++ ':' :: "59".toList)) (some sched0700) =
      some (if 7 * 60 + 20 ≤ 440 then "on_time".toList
            else if 7 * 60 + 20 ≤ 480 then "late".toList
            else "absent".toList) :=
  calculate_attendance_status_boundaries "07".toList "20".toList "59".toList 7 20
    (by decide) (by decide) (by decide) (by decide)

/-- Claim C7 counterexample: when the schedule fetch fails, the code does
NOT apply the TOO_EARLY / CLASSES_ENDED checks to the default schedule —
it admits the tap unconditionally (database.py lines 135-141).  At arrival
00:00:00, which is more than 30 minutes before the default 07:00 start,
the tap is admitted with no decline reason. -/
theorem validate_tap_time_fetch_failure_admits :
    validate_tap_time none "00:00:00".toList = some (true, none, defaultSchedData) ∧
    time_to_minutes (some "00:00:00".toList) = some 0 ∧
    time_to_minutes (some DEFAULT_START_TIME) = some 420 ∧
    0 + EARLY_BUFFER_MINUTES < 420 := by
  exact ⟨by decide, by decide, by decide, by decide⟩

/-- Claim C7 amended: when the fetch succeeds and the schedule has a start,
the tap is declined TOO_EARLY exactly when the arrival is more than 30
minutes before the start, and CLASSES_ENDED exactly when the arrival is
after the end (which defaults to start+600 when absent or blank); when the
fetch fails or returns nothing, the tap is admitted unconditionally and
the documented defaults are returned only as data for downstream status
calculation; a fetched response without a usable schedule declines
NO_CLASSES_TODAY instead of substituting defaults. -/
theorem validate_tap_time_spec :
    (∀ arr a, time_to_minutes (some arr) = some a →
      validate_tap_time none arr = some (true, none, defaultSchedData)) ∧
    (∀ sd arr a, time_to_minutes (some arr) = some a → sd.schedule = none →
      validate_tap_time (some sd) arr =
        some (false, some DeclineReason.NO_CLASSES_TODAY, sd)) ∧
    (∀ sd ts arr a s e, sd.schedule = some ts → blankOpt ts.start = false →
      time_to_minutes (some arr) = some a → time_to_minutes ts.start = some s →
      (if blankOpt ts.endT then some (s + 600) else time_to_minutes ts.endT) = some e →
      validate_tap_time (some sd) arr =
        some (if a + EARLY_BUFFER_MINUTES < s then (false, some DeclineReason.TOO_EARLY, sd)
              else if e < a then (false, some DeclineReason.CLASSES_ENDED, sd)
              else (true, none, sd))) := by
  refine ⟨?_, ?_, ?_⟩
  · intro arr a ha
    simp only [validate_tap_time, ha]
  · intro sd arr a ha hs
    simp only [validate_tap_time, ha, hs]
  · intro sd ts arr a s e hs hb ha hst he
    simp only [validate_tap_time, ha, hs, hb, Bool.false_eq_true, if_false, hst, he,
      ← lt_tsub_iff_right]
    split_ifs <;> rfl

/-- Witness for the amended C7: 06:29:00 against the 07:00 schedule is more
than 30 minutes early. -/
theorem validate_tap_time_spec_witness :
    validate_tap_time (some sched0700) "06:29:00".toList =
      some (if 389 + EARLY_BUFFER_MINUTES < 420
            then (false, some DeclineReason.TOO_EARLY, sched0700)
            else if 1020 < 389 then (false, some DeclineReason.CLASSES_ENDED, sched0700)
            else (true, none, sched0700)) :=
  validate_tap_time_spec.2.2 sched0700
    { start := some "07:00".toList, endT := some "17:00".toList }
    "06:29:00".toList 389 420 1020 rfl (by decide) (by decide) (by decide) (by decide)

/-! ### Claim C5 -/

lemma usersMaxFrom_init_le (m : Nat) (l : List (List Char × User)) :
    m ≤ usersMaxFrom m l := by
  induction l generalizing m with
  | nil => exact Nat.le_refl m
  | cons p rest ih =>
    exact Nat.le_trans (Nat.le_max_left m (tidOf p.2)) (ih (max m (tidOf p.2)))

lemma usersMaxFrom_mem_le {p : List Char × User} {l : List (List Char × User)}
    (hp : p ∈ l) (m : Nat) : tidOf p.2 ≤ usersMaxFrom m l := by
  induction l generalizing m with
  | nil => exact absurd hp (List.not_mem_nil p)
  | cons q rest ih =>
    rcases List.mem_cons.mp hp with h | h
    · subst h
      exact Nat.le_trans (Nat.le_max_right m (tidOf p.2))
        (usersMaxFrom_init_le (max m (tidOf p.2)) rest)
    · exact ih h (max m (tidOf q.2))

/-- The database exhibiting the C5 counterexample: both stores empty, the
stored counter at 5. -/
def exDB5 : Database :=
  { json := { next_tamtap_id := 5 }, remote := {}, remoteOk := false }

/-- Claim C5 counterexample: with both stores empty and the stored
`next_tamtap_id` counter at 5, the allocator returns 5 —
`max(max_id + 1, stored_next)`, not `max(max_id, stored_next) + 1` as the
claim states (which would give 6) — and in particular the result is not
strictly greater than the stored counter. -/
theorem get_next_tamtap_id_counterexample :
    get_next_tamtap_id exDB5 = 5 ∧
    exDB5.json.next_tamtap_id = 5 ∧
    get_next_tamtap_id exDB5 ≠ max (max 0 0) exDB5.json.next_tamtap_id + 1 ∧
    ¬ exDB5.json.next_tamtap_id < get_next_tamtap_id exDB5 := by
  exact ⟨by decide, by decide, by decide, by decide⟩

/-- Claim C5 amended: the allocator returns
`max(observed_max + 1, stored_counter)`: the result is strictly greater
than every observed `tamtap_id` (in the local tables always, and in the
remote tables whenever the remote was reachable for the scan), and at
least — but not necessarily strictly greater than — the stored
`next_tamtap_id` counter. -/
theorem get_next_tamtap_id_spec (db : Database) :
    db.json.next_tamtap_id ≤ get_next_tamtap_id db ∧
    (∀ p ∈ db.json.students, tidOf p.2 < get_next_tamtap_id db) ∧
    (∀ p ∈ db.json.teachers, tidOf p.2 < get_next_tamtap_id db) ∧
    (db.remoteOk = true →
      (∀ p ∈ db.remote.students, tidOf p.2 < get_next_tamtap_id db) ∧
      (∀ p ∈ db.remote.teachers, tidOf p.2 < get_next_tamtap_id db)) := by
  unfold get_next_tamtap_id
  set m0 := if db.remoteOk then
      usersMaxFrom (usersMaxFrom 0 db.remote.students) db.remote.teachers
    else 0 with hm0
  refine ⟨Nat.le_max_right _ _, ?_, ?_, ?_⟩
  · intro p hp
    have h1 : tidOf p.2 ≤ usersMaxFrom m0 db.json.students :=
      usersMaxFrom_mem_le hp m0
    have h2 := usersMaxFrom_init_le (usersMaxFrom m0 db.json.students) db.json.teachers
    exact Nat.lt_of_lt_of_le (Nat.lt_succ_of_le (Nat.le_trans h1 h2))
      (Nat.le_max_left _ _)
  · intro p hp
    have h1 : tidOf p.2 ≤ usersMaxFrom (usersMaxFrom m0 db.json.students) db.json.teachers :=
      usersMaxFrom_mem_le hp _
    exact Nat.lt_of_lt_of_le (Nat.lt_succ_of_le h1) (Nat.le_max_left _ _)
  · intro hok
    have hchain : m0 ≤ usersMaxFrom (usersMaxFrom m0 db.json.students) db.json.teachers :=
      Nat.le_trans (usersMaxFrom_init_le m0 db.json.students)
        (usersMaxFrom_init_le (usersMaxFrom m0 db.json.students) db.json.teachers)
    constructor
    · intro p hp
      have h1 : tidOf p.2 ≤ usersMaxFrom 0 db.remote.students :=
        usersMaxFrom_mem_le hp 0
      have h2 : usersMaxFrom 0 db.remote.students ≤ m0 := by
        rw [hm0, hok]
        simpa using usersMaxFrom_init_le (usersMaxFrom 0 db.remote.students) db.remote.teachers
      exact Nat.lt_of_lt_of_le
        (Nat.lt_succ_of_le (Nat.le_trans (Nat.le_trans h1 h2) hchain))
        (Nat.le_max_left _ _)
    · intro p hp
      have h1 : tidOf p.2 ≤ usersMaxFrom (usersMaxFrom 0 db.remote.students) db.remote.teachers :=
        usersMaxFrom_mem_le hp _
      have h2 : usersMaxFrom (usersMaxFrom 0 db.remote.students) db.remote.teachers ≤ m0 := by
        rw [hm0, hok]; simp
      exact Nat.lt_of_lt_of_le
        (Nat.lt_succ_of_le (Nat.le_trans (Nat.le_trans h1 h2) hchain))
        (Nat.le_max_left _ _)

/-- Witness for the amended C5 at the concrete counterexample database. -/
theorem get_next_tamtap_id_spec_witness :
    exDB5.json.next_tamtap_id ≤ get_next_tamtap_id exDB5 ∧
    (∀ p ∈ exDB5.json.students, tidOf p.2 < get_next_tamtap_id exDB5) ∧
    (∀ p ∈ exDB5.json.teachers, tidOf p.2 < get_next_tamtap_id exDB5) ∧
    (exDB5.remoteOk = true →
      (∀ p ∈ exDB5.remote.students, tidOf p.2 < get_next_tamtap_id exDB5) ∧
      (∀ p ∈ exDB5.remote.teachers, tidOf p.2 < get_next_tamtap_id exDB5)) :=
  get_next_tamtap_id_spec exDB5

/-! ### Claim C8 -/

/-- Claim C8: if the badge key already resolves to an existing identity (in
either role), registration fails synchronously — `register_user` returns
`False` — and writes nothing: the returned state is exactly the input
state, so neither the local cache nor the remote store is modified. -/
theorem register_user_duplicate_rejected (db : Database) (clock : Clock)
    (nfc : List Char) (u : User) (role : List Char)
    (h : user_exists db nfc = true) :
    register_user db clock nfc u role = (db, false) := by
  simp [register_user, h]

/-- A database whose cache already holds a student with badge key 04A1. -/
def exDB8 : Database :=
  { json := { students := [("04A1".toList, {})] }, remote := {}, remoteOk := false }

/-- Witness for C8 at the concrete duplicate badge key. -/
theorem register_user_duplicate_rejected_witness :
    register_user exDB8
        { day := "2026-10-12".toList, timeStr := "08:00:00".toList, hour := 8 }
        "04A1".toList {} "student".toList = (exDB8, false) :=
  register_user_duplicate_rejected exDB8 _ "04A1".toList {} "student".toList (by decide)

/-! ### Claim C4 -/

/-- The "correct answer from the local cache alone" for identity lookup:
students first, then teachers (this is the JSON-fallback contract the spec
states for the disconnected store). -/
def cache_lookup (d : LocalData) (nfc : List Char) : Option (User × List Char) :=
  match assocFind d.students nfc with
  | some u => some (u, "student".toList)
  | none =>
    match assocFind d.teachers nfc with
    | some u => some (u, "teacher".toList)
    | none => none

/-- The "correct answer from the local cache alone" for the daily dedup
check: scan the cached attendance list and the pending queue. -/
def cache_logged_today (d : LocalData) (day nfc : List Char) : Bool :=
  d.attendance.any (localMatch nfc day) || d.pending_attendance.any (localMatch nfc day)

/-- Claim C4: with the remote store failing (or disconnected) on every
call, `get_user` and `is_already_logged_today` return the answers computed
from the local cache alone (pending queue included), and `save_attendance`
on a not-yet-logged key still succeeds, returning `True` and appending the
event to the local pending queue (being in that queue is what marks it
pending) with every other part of the state unchanged; no connectivity
error reaches the scan path — each operation returns a value. -/
theorem remote_down_transparency (db : Database) (clock : Clock)
    (nfc name role : List Char) (pp : Option (List Char)) (ud : Option User)
    (fetched : Option SchedData) (st : List Char)
    (hdown : db.remoteOk = false)
    (hstat : calculate_attendance_status (sectOf ud) clock.timeStr fetched = some st) :
    get_user db nfc = cache_lookup db.json nfc ∧
    is_already_logged_today db clock nfc = cache_logged_today db.json clock.day nfc ∧
    (cache_logged_today db.json clock.day nfc = false →
      save_attendance db clock nfc name role pp ud fetched =
        some ({ db with
                  json := { db.json with
                              pending_attendance := db.json.pending_attendance ++
                                [mkAttRec clock nfc name role pp ud st] } }, true)) := by
  have hlog : is_already_logged_today db clock nfc =
      cache_logged_today db.json clock.day nfc := by
    simp [is_already_logged_today, cache_logged_today, hdown, Bool.or_assoc]
  refine ⟨?_, hlog, ?_⟩
  · simp [get_user, hdown, cache_lookup]
  · intro hfresh
    simp [save_attendance, hlog, hfresh, hstat, hdown]

/-- Witness for C4: empty disconnected database, one concrete scan. -/
theorem remote_down_transparency_witness :
    get_user { remoteOk := false } "04A1".toList =
      cache_lookup ({} : LocalData) "04A1".toList ∧
    is_already_logged_today { remoteOk := false }
        { day := "2026-10-12".toList, timeStr := "08:00:00".toList, hour := 8 }
        "04A1".toList =
      cache_logged_today ({} : LocalData) "2026-10-12".toList "04A1".toList ∧
    (cache_logged_today ({} : LocalData) "2026-10-12".toList "04A1".toList = false →
      save_attendance { remoteOk := false }
          { day := "2026-10-12".toList, timeStr := "08:00:00".toList, hour := 8 }
          "04A1".toList "Ana".toList "student".toList none none none =
        some ({ remoteOk := false,
                json := { pending_attendance :=
                  [mkAttRec { day := "2026-10-12".toList, timeStr := "08:00:00".toList, hour := 8 }
                    "04A1".toList "Ana".toList "student".toList none none "late".toList] } },
              true)) :=
  remote_down_transparency { remoteOk := false }
    { day := "2026-10-12".toList, timeStr := "08:00:00".toList, hour := 8 }
    "04A1".toList "Ana".toList "student".toList none none none "late".toList
    rfl (by decide)

/-! ### Claim C9 -/

lemma assocFind_append {V : Type} (l1 l2 : List (List Char × V)) (k : List Char) :
    assocFind (l1 ++ l2) k =
      match assocFind l1 k with
      | some v => some v
      | none => assocFind l2 k := by
  induction l1 with
  | nil => rfl
  | cons p rest ih =>
    by_cases h : p.1 = k <;> simp [assocFind, h, ih]

lemma assocFind_none_iff_any {V : Type} (l : List (List Char × V)) (k : List Char) :
    (l.any (fun p => p.1 == k)) = false ↔ assocFind l k = none := by
  induction l with
  | nil => simp [assocFind]
  | cons p rest ih =>
    by_cases h : p.1 = k <;> simp [assocFind, h, ih]

lemma setdefault_find_some {o : List (List Char × JVal)} {k' : List Char} {w : JVal}
    (k : List Char) (v : JVal) (h : assocFind o k' = some w) :
    assocFind (setdefault o k v) k' = some w := by
  unfold setdefault
  split
  · exact h
  · rw [assocFind_append, h]

lemma setdefault_find_same_none {o : List (List Char × JVal)} {k : List Char}
    (v : JVal) (h : assocFind o k = none) :
    assocFind (setdefault o k v) k = some v := by
  unfold setdefault
  rw [if_neg (by simp [(assocFind_none_iff_any o k).mpr h])]
  rw [assocFind_append, h]
  simp [assocFind]

lemma setdefault_find_other {o : List (List Char × JVal)} {k' : List Char}
    (k : List Char) (v : JVal) (h : k' ≠ k) :
    assocFind (setdefault o k v) k' = assocFind o k' := by
  unfold setdefault
  split
  · rfl
  · rw [assocFind_append]
    have hk : ¬ k = k' := fun e => h e.symm
    have hkv : assocFind [(k, v)] k' = none := by simp [assocFind, hk]
    cases he : assocFind o k' <;> simp [he, hkv]

/-- The parsed object exhibiting the C9 counterexample: a `students` key
that is present but holds a list, not a map. -/
def badContent : JVal := JVal.jobj [("students".toList, JVal.jarr [])]

/-- Claim C9 counterexample: `_load_json` only `setdefault`s missing keys;
a present key of the wrong type is returned as stored, so on the file
content `{"students": []}` the returned snapshot's `students` entry is a
list, not a map, refuting "for any file content the returned value always
contains students and teachers as maps". -/
theorem load_json_wrong_type_kept :
    jlookup (load_json (FileRead.content badContent)) "students".toList =
      some (JVal.jarr []) ∧
    (∀ o, JVal.jarr ([] : List JVal) ≠ JVal.jobj o) :=
  ⟨rfl, fun _ h => JVal.noConfusion h⟩

/-- Claim C9 amended: `_load_json` never raises; a missing, unreadable or
unparsable file — and also a parsed non-object — yields the empty
well-formed snapshot; for a parsed object, every key already present keeps
its stored value (whatever its type), and each of the five managed keys
(`students`, `teachers`, `attendance`, `pending_attendance`,
`next_tamtap_id`), when absent, is filled with its well-typed default
(`{}`, `{}`, `[]`, `[]`, `1`). -/
theorem load_json_resilient :
    load_json FileRead.missing = empty_structure ∧
    load_json FileRead.unreadable = empty_structure ∧
    (∀ v, (∀ o, v ≠ JVal.jobj o) → load_json (FileRead.content v) = empty_structure) ∧
    (∀ o k w, assocFind o k = some w →
      jlookup (load_json (FileRead.content (JVal.jobj o))) k = some w) ∧
    (∀ o,
      jlookup (load_json (FileRead.content (JVal.jobj o))) "students".toList =
        some ((assocFind o "students".toList).getD (JVal.jobj [])) ∧
      jlookup (load_json (FileRead.content (JVal.jobj o))) "teachers".toList =
        some ((assocFind o "teachers".toList).getD (JVal.jobj [])) ∧
      jlookup (load_json (FileRead.content (JVal.jobj o))) "attendance".toList =
        some ((assocFind o "attendance".toList).getD (JVal.jarr [])) ∧
      jlookup (load_json (FileRead.content (JVal.jobj o))) "pending_attendance".toList =
        some ((assocFind o "pending_attendance".toList).getD (JVal.jarr [])) ∧
      jlookup (load_json (FileRead.content (JVal.jobj o))) "next_tamtap_id".toList =
        some ((assocFind o "next_tamtap_id".toList).getD (JVal.jnum 1))) := by
  refine ⟨rfl, rfl, ?_, ?_, ?_⟩
  · intro v hv
    cases v with
    | jobj o => exact absurd rfl (hv o)
    | jnull => rfl
    | jbool b => rfl
    | jnum n => rfl
    | jstr s => rfl
    | jarr l => rfl
  · intro o k w h
    show assocFind _ k = some w
    exact setdefault_find_some _ _ (setdefault_find_some _ _ (setdefault_find_some _ _
      (setdefault_find_some _ _ (setdefault_find_some _ _ h))))
  · intro o
    refine ⟨?_, ?_, ?_, ?_, ?_⟩
    · show assocFind _ _ = _
      cases h : assocFind o "students".toList with
      | some w =>
        simp only [Option.getD_some]
        exact setdefault_find_some _ _ (setdefault_find_some _ _ (setdefault_find_some _ _
          (setdefault_find_some _ _ (setdefault_find_some _ _ h))))
      | none =>
        simp only [Option.getD_none]
        exact setdefault_find_some _ _ (setdefault_find_some _ _ (setdefault_find_some _ _
          (setdefault_find_some _ _ (setdefault_find_same_none _ h))))
    · show assocFind _ _ = _
      cases h : assocFind o "teachers".toList with
      | some w =>
        simp only [Option.getD_some]
        exact setdefault_find_some _ _ (setdefault_find_some _ _ (setdefault_find_some _ _
          (setdefault_find_some _ _ (setdefault_find_some _ _ h))))
      | none =>
        simp only [Option.getD_none]
        refine setdefault_find_some _ _ (setdefault_find_some _ _ (setdefault_find_some _ _
          (setdefault_find_same_none _ ?_)))
        rw [setdefault_find_other _ _ (by decide), h]
    · show assocFind _ _ = _
      cases h : assocFind o "attendance".toList with
      | some w =>
        simp only [Option.getD_some]
        exact setdefault_find_some _ _ (setdefault_find_some _ _ (setdefault_find_some _ _
          (setdefault_find_some _ _ (setdefault_find_some _ _ h))))
      | none =>
        simp only [Option.getD_none]
        refine setdefault_find_some _ _ (setdefault_find_some _ _
          (setdefault_find_same_none _ ?_))
        rw [setdefault_find_other _ _ (by decide), setdefault_find_other _ _ (by decide), h]
    · show assocFind _ _ = _
      cases h : assocFind o "pending_attendance".toList with
      | some w =>
        simp only [Option.getD_some]
        exact setdefault_find_some _ _ (setdefault_find_some _ _ (setdefault_find_some _ _
          (setdefault_find_some _ _ (setdefault_find_some _ _ h))))
      | none =>
        simp only [Option.getD_none]
        refine setdefault_find_some _ _ (setdefault_find_same_none _ ?_)
        rw [setdefault_find_other _ _ (by decide), setdefault_find_other _ _ (by decide),
          setdefault_find_other _ _ (by decide), h]
    · show assocFind _ _ = _
      cases h : assocFind o "next_tamtap_id".toList with
      | some w =>
        simp only [Option.getD_some]
        exact setdefault_find_some _ _ (setdefault_find_some _ _ (setdefault_find_some _ _
          (setdefault_find_some _ _ (setdefault_find_some _ _ h))))
      | none =>
        simp only [Option.getD_none]
        refine setdefault_find_same_none _ ?_
        rw [setdefault_find_other _ _ (by decide), setdefault_find_other _ _ (by decide),
          setdefault_find_other _ _ (by decide), setdefault_find_other _ _ (by decide), h]

/-- Witness for the amended C9 on concrete file states. -/
theorem load_json_resilient_witness :
    load_json FileRead.missing = empty_structure ∧
    load_json (FileRead.content (JVal.jarr [])) = empty_structure ∧
    jlookup (load_json (FileRead.content (JVal.jobj
        [("next_tamtap_id".toList, JVal.jnum 7)]))) "next_tamtap_id".toList =
      some (JVal.jnum 7) ∧
    jlookup (load_json (FileRead.content (JVal.jobj []))) "students".toList =
      some ((assocFind ([] : List (List Char × JVal)) "students".toList).getD (JVal.jobj [])) :=
  ⟨load_json_resilient.1,
   load_json_resilient.2.2.1 (JVal.jarr []) (fun _ h => JVal.noConfusion h),
   load_json_resilient.2.2.2.1 [("next_tamtap_id".toList, JVal.jnum 7)]
     "next_tamtap_id".toList (JVal.jnum 7) rfl,
   (load_json_resilient.2.2.2.2 []).1⟩

/-! ### Claim C3 -/

lemma assocSet_of_absent {V : Type} (l : List (List Char × V)) (k : List Char) (v : V)
    (h : assocFind l k = none) : assocSet l k v = l ++ [(k, v)] := by
  unfold assocSet
  rw [if_neg (by simp [(assocFind_none_iff_any l k).mpr h])]

lemma buildMap_go (docs : List (List Char × User)) :
    ∀ acc : List (List Char × User),
      (docs.map (fun p => p.1)).Nodup →
      (∀ p ∈ docs, p.1.isEmpty = false) →
      (∀ p ∈ docs, assocFind acc p.1 = none) →
      ∀ k, assocFind
          (docs.foldl (fun acc p => if p.1.isEmpty then acc else assocSet acc p.1 p.2) acc) k =
        match assocFind acc k with
        | some v => some v
        | none => assocFind docs k := by
  induction docs with
  | nil =>
    intro acc _ _ _ k
    cases h : assocFind acc k <;> simp [h, assocFind]
  | cons p rest ih =>
    intro acc hnd hne hdisj k
    have hpe : p.1.isEmpty = false := hne p (List.mem_cons_self p rest)
    have hpf : assocFind acc p.1 = none := hdisj p (List.mem_cons_self p rest)
    have hset : assocSet acc p.1 p.2 = acc ++ [(p.1, p.2)] := assocSet_of_absent _ _ _ hpf
    rw [List.map_cons] at hnd
    have hnd' : (rest.map (fun p => p.1)).Nodup := (List.nodup_cons.mp hnd).2
    have hkey : p.1 ∉ rest.map (fun q => q.1) := (List.nodup_cons.mp hnd).1
    have hdisj' : ∀ q ∈ rest, assocFind (acc ++ [(p.1, p.2)]) q.1 = none := by
      intro q hq
      rw [assocFind_append, hdisj q (List.mem_cons_of_mem p hq)]
      have : ¬ p.1 = q.1 := fun e => hkey (e ▸ List.mem_map_of_mem (fun z => z.1) hq)
      simp [assocFind, this]
    have hfold := ih (acc ++ [(p.1, p.2)]) hnd'
      (fun q hq => hne q (List.mem_cons_of_mem p hq)) hdisj' k
    simp only [List.foldl_cons, hpe, Bool.false_eq_true, if_false, hset]
    rw [hfold, assocFind_append]
    by_cases hk : p.1 = k
    · subst hk
      rw [hpf]
      simp [assocFind]
    · cases ha : assocFind acc k <;> simp [assocFind, hk, ha]

/-- With the remote unique-index invariant (badge keys pairwise distinct and
nonempty), the dictionary `_pull_from_mongodb` builds from a remote
collection looks up exactly as the collection itself. -/
lemma buildMap_find (docs : List (List Char × User))
    (hnd : (docs.map (fun p => p.1)).Nodup)
    (hne : ∀ p ∈ docs, p.1.isEmpty = false) (k : List Char) :
    assocFind (buildMap docs) k = assocFind docs k := by
  have h := buildMap_go docs [] hnd hne (fun p _ => rfl) k
  simpa [buildMap, assocFind] using h

/-- Claim C3: a pull sets the cached students and teachers tables to
exactly the identity records fetched from the remote store (wholesale
replacement — lookups agree on every key, under the remote unique-index
invariant that badge keys are pairwise distinct and nonempty), and leaves
the cached attendance list, the pending queue, the allocator counter and
the remote store itself unchanged. -/
theorem pull_replaces_identities_only (db : Database) (clock : Clock)
    (hconn : db.remoteOk = true)
    (hndS : (db.remote.students.map (fun p => p.1)).Nodup)
    (hneS : ∀ p ∈ db.remote.students, p.1.isEmpty = false)
    (hndT : (db.remote.teachers.map (fun p => p.1)).Nodup)
    (hneT : ∀ p ∈ db.remote.teachers, p.1.isEmpty = false) :
    (∀ k, assocFind (pull_from_mongodb db clock).json.students k =
      assocFind db.remote.students k) ∧
    (∀ k, assocFind (pull_from_mongodb db clock).json.teachers k =
      assocFind db.remote.teachers k) ∧
    (pull_from_mongodb db clock).json.attendance = db.json.attendance ∧
    (pull_from_mongodb db clock).json.pending_attendance = db.json.pending_attendance ∧
    (pull_from_mongodb db clock).json.next_tamtap_id = db.json.next_tamtap_id ∧
    (pull_from_mongodb db clock).remote = db.remote := by
  unfold pull_from_mongodb
  rw [if_pos hconn]
  exact ⟨fun k => buildMap_find _ hndS hneS k, fun k => buildMap_find _ hndT hneT k,
    rfl, rfl, rfl, rfl⟩

/-- A connected database with two remote students, one remote teacher, and
stale local identity tables, exercising the pull. -/
def exDB3 : Database :=
  { json := { students := [("OLD".toList, {})],
              attendance := [{ nfc_id := some "04A1".toList,
                               date := "2026-10-11 08:00:00".toList }],
              pending_attendance := [{ nfc_id := some "04A2".toList,
                                       date := "2026-10-12 07:55:00".toList }],
              next_tamtap_id := 4 },
    remote := { students := [("04A1".toList, {}), ("04A2".toList, {})],
                teachers := [("T1".toList, {})] },
    remoteOk := true }

/-- Witness for C3 on the concrete connected database. -/
theorem pull_replaces_identities_only_witness :
    (∀ k, assocFind (pull_from_mongodb exDB3
        { day := "2026-10-12".toList, timeStr := "09:00:00".toList, hour := 9 }).json.students k =
      assocFind exDB3.remote.students k) ∧
    (∀ k, assocFind (pull_from_mongodb exDB3
        { day := "2026-10-12".toList, timeStr := "09:00:00".toList, hour := 9 }).json.teachers k =
      assocFind exDB3.remote.teachers k) ∧
    (pull_from_mongodb exDB3
        { day := "2026-10-12".toList, timeStr := "09:00:00".toList, hour := 9 }).json.attendance =
      exDB3.json.attendance ∧
    (pull_from_mongodb exDB3
        { day := "2026-10-12".toList, timeStr := "09:00:00".toList, hour := 9 }).json.pending_attendance =
      exDB3.json.pending_attendance ∧
    (pull_from_mongodb exDB3
        { day := "2026-10-12".toList, timeStr := "09:00:00".toList, hour := 9 }).json.next_tamtap_id =
      exDB3.json.next_tamtap_id ∧
    (pull_from_mongodb exDB3
        { day := "2026-10-12".toList, timeStr := "09:00:00".toList, hour := 9 }).remote =
      exDB3.remote :=
  pull_replaces_identities_only exDB3 _ rfl (by decide) (by decide) (by decide) (by decide)

/-! ### Claim C2 -/

/-- Number of remote attendance documents matching the dedup query for a
given badge key and day. -/
def countMatch (rem : List AttRec) (key day : List Char) : Nat :=
  rem.countP (remoteMatch key day)

/-- Whether the pending queue, processed from index `i` on, offers at least
one record for the given badge key and day whose remote call succeeds. -/
def incomingFrom (failA : Nat → Bool) (i : Nat) (pend : List AttRec)
    (key day : List Char) : Bool :=
  (pend.enumFrom i).any
    (fun q => !failA q.1 && (q.2.nfc_id == some key) && (q.2.date.take 10 == day))

lemma any_eq_false_iff_countP {α : Type} (l : List α) (p : α → Bool) :
    l.any p = false ↔ l.countP p = 0 := by
  rw [List.countP_eq_zero, ← Bool.not_eq_true, List.any_eq_true]
  push_neg
  rfl

lemma recKey_some {r : AttRec} {v : List Char} (h : r.nfc_id = some v) :
    recKey r = v := by
  simp [recKey, h]

lemma countMatch_append (a b : List AttRec) (key day : List Char) :
    countMatch (a ++ b) key day = countMatch a key day + countMatch b key day :=
  List.countP_append _ a b

lemma countMatch_single (r : AttRec) (key day : List Char) :
    countMatch [r] key day = if remoteMatch key day r = true then 1 else 0 := by
  simp [countMatch, List.countP_cons]

lemma pushAttLoop_still (failA : Nat → Bool) :
    ∀ (pend : List AttRec) (i : Nat) (rem : List AttRec),
      (pushAttLoop failA i pend rem).2 =
        ((pend.enumFrom i).filter (fun q => failA q.1)).map (fun q => q.2) := by
  intro pend
  induction pend with
  | nil => intro i rem; rfl
  | cons r rest ih =>
    intro i rem
    simp only [pushAttLoop, List.enumFrom_cons, List.filter_cons]
    by_cases hf : failA i = true
    · simp only [hf, if_true, ih, List.map_cons]
    · have hf' : failA i = false := Bool.eq_false_iff.mpr hf
      simp only [hf', Bool.false_eq_true, if_false, ih]

lemma pushAttLoop_count (failA : Nat → Bool) (key day : List Char)
    (hd : day.length = 10) :
    ∀ (pend : List AttRec) (i : Nat) (rem : List AttRec),
      (∀ r ∈ pend, r.nfc_id.isSome = true ∧ 10 ≤ r.date.length) →
      countMatch (pushAttLoop failA i pend rem).1 key day =
        countMatch rem key day +
          (if countMatch rem key day = 0 ∧ incomingFrom failA i pend key day = true
           then 1 else 0) := by
  have hsw : ∀ s : List Char, startsWithL day s = true ↔ s.take 10 = day := by
    intro s; rw [startsWithL_iff, hd]
  intro pend
  induction pend with
  | nil =>
    intro i rem _
    simp [pushAttLoop, incomingFrom]
  | cons r rest ih =>
    intro i rem hrec
    have hr := hrec r (List.mem_cons_self r rest)
    have hrest : ∀ q ∈ rest, q.nfc_id.isSome = true ∧ 10 ≤ q.date.length :=
      fun q hq => hrec q (List.mem_cons_of_mem r hq)
    obtain ⟨v, hv⟩ := Option.isSome_iff_exists.mp hr.1
    have hinc : incomingFrom failA i (r :: rest) key day =
        ((!failA i && (r.nfc_id == some key) && (r.date.take 10 == day))
          || incomingFrom failA (i + 1) rest key day) := by
      simp [incomingFrom, List.enumFrom_cons]
    by_cases hf : failA i = true
    · simp only [pushAttLoop, hf, if_true]
      rw [ih (i + 1) rem hrest, hinc, hf]
      simp
    · have hf' : failA i = false := Bool.eq_false_iff.mpr hf
      simp only [pushAttLoop, hf', Bool.false_eq_true, if_false]
      rw [hinc, hf']
      simp only [Bool.not_false, Bool.true_and]
      cases hcon : ((r.nfc_id == some key) && (r.date.take 10 == day)) with
      | true =>
        -- the record targets exactly our (key, day)
        have hparts := Bool.and_eq_true _ _ |>.mp hcon
        have hkeq : r.nfc_id = some key := by
          have := hparts.1; rwa [beq_iff_eq] at this
        have hdeq : r.date.take 10 = day := by
          have := hparts.2; rwa [beq_iff_eq] at this
        have hrk : recKey r = key := recKey_some hkeq
        have hrm : remoteMatch key day r = true := by
          simp [remoteMatch, hkeq, (hsw r.date).mpr hdeq]
        by_cases hm : rem.any (remoteMatch (recKey r) (r.date.take 10)) = true
        · -- a remote match already exists for (key, day): nothing inserted
          rw [hrk, hdeq] at hm
          have hpos : ¬ countMatch rem key day = 0 := by
            intro h0
            rw [countMatch, ← any_eq_false_iff_countP] at h0
            rw [h0] at hm
            exact Bool.false_ne_true hm
          simp only [hrk, hdeq, hm, if_true]
          rw [ih (i + 1) rem hrest]
          rw [if_neg (fun hc => hpos hc.1), if_neg (fun hc => hpos hc.1)]
        · -- no remote match yet: the record is inserted, count goes to 1
          have hm' : rem.any (remoteMatch (recKey r) (r.date.take 10)) = false :=
            Bool.eq_false_iff.mpr hm
          have hzero : countMatch rem key day = 0 := by
            rw [hrk, hdeq] at hm'
            exact (any_eq_false_iff_countP rem (remoteMatch key day)).mp hm'
          simp only [hm', Bool.false_eq_true, if_false]
          rw [ih (i + 1) (rem ++ [r]) hrest]
          rw [countMatch_append, countMatch_single, if_pos hrm, hzero]
          have hone : ¬ (0 + 1 = 0) := by omega
          rw [if_neg (fun hc => hone hc.1)]
          rw [if_pos ⟨rfl, by simp⟩]
      | false =>
        -- the record targets a different (key, day): our count is unchanged
        have hrm : remoteMatch key day r = false := by
          cases hn : (r.nfc_id == some key) with
          | false => simp [remoteMatch, hn]
          | true =>
            have hkeq : r.nfc_id = some key := by rwa [beq_iff_eq] at hn
            have hdne : ¬ (r.date.take 10 == day) = true := by
              intro hdq
              rw [hn, hdq] at hcon
              simp at hcon
            cases hsb : startsWithL day r.date with
            | false => simp [remoteMatch, hsb]
            | true =>
              exact absurd (by simp [(hsw r.date).mp hsb]) hdne
        by_cases hm : rem.any (remoteMatch (recKey r) (r.date.take 10)) = true
        · simp only [hm, if_true]
          rw [ih (i + 1) rem hrest]
          simp
        · have hm' : rem.any (remoteMatch (recKey r) (r.date.take 10)) = false :=
            Bool.eq_false_iff.mpr hm
          simp only [hm', Bool.false_eq_true, if_false]
          rw [ih (i + 1) (rem ++ [r]) hrest]
          rw [countMatch_append, countMatch_single, if_neg (by rw [hrm]; exact Bool.false_ne_true)]
          simp

lemma pushUsersLoop_mem_mono (failU : List Char → Bool) :
    ∀ (locals rem : List (List Char × User)) (p : List Char × User),
      p ∈ rem → p ∈ pushUsersLoop failU locals rem := by
  intro locals
  induction locals with
  | nil => intro rem p hp; exact hp
  | cons q rest ih =>
    intro rem p hp
    simp only [pushUsersLoop]
    by_cases hf : failU q.1 = true
    · rw [if_pos hf]; exact ih rem p hp
    · rw [if_neg hf]
      by_cases hk : rem.any (fun z => z.1 == q.1) = true
      · rw [if_pos hk]; exact ih rem p hp
      · rw [if_neg hk]; exact ih (rem ++ [q]) p (List.mem_append_left _ hp)

lemma pushUsersLoop_hasKey_mono (failU : List Char → Bool)
    (locals rem : List (List Char × User)) (k : List Char)
    (h : rem.any (fun z => z.1 == k) = true) :
    (pushUsersLoop failU locals rem).any (fun z => z.1 == k) = true := by
  obtain ⟨p, hp, hpk⟩ := List.any_eq_true.mp h
  exact List.any_eq_true.mpr ⟨p, pushUsersLoop_mem_mono failU locals rem p hp, hpk⟩

lemma pushUsersLoop_covers (failU : List Char → Bool) :
    ∀ (locals rem : List (List Char × User)) (p : List Char × User),
      p ∈ locals → failU p.1 = false →
      (pushUsersLoop failU locals rem).any (fun z => z.1 == p.1) = true := by
  intro locals
  induction locals with
  | nil => intro rem p hp; exact absurd hp (List.not_mem_nil p)
  | cons q rest ih =>
    intro rem p hp hfp
    rcases List.mem_cons.mp hp with he | hm
    · subst he
      simp only [pushUsersLoop, hfp, Bool.false_eq_true, if_false]
      by_cases hk : rem.any (fun z => z.1 == p.1) = true
      · rw [if_pos hk]
        exact pushUsersLoop_hasKey_mono failU rest rem p.1 hk
      · rw [if_neg hk]
        exact pushUsersLoop_hasKey_mono failU rest (rem ++ [p]) p.1
          (List.any_eq_true.mpr ⟨p, List.mem_append_right _ (List.mem_singleton.mpr rfl),
            by simp⟩)
    · simp only [pushUsersLoop]
      by_cases hf : failU q.1 = true
      · rw [if_pos hf]; exact ih rem p hm hfp
      · rw [if_neg hf]
        by_cases hk : rem.any (fun z => z.1 == q.1) = true
        · rw [if_pos hk]; exact ih rem p hm hfp
        · rw [if_neg hk]; exact ih (rem ++ [q]) p hm hfp

/-- Claim C2: with the remote reachable, `_push_pending_to_mongodb`
(1) leaves queued exactly the pending events whose remote call failed, in
order — every other pending event is removed from the queue;
(2) inserts an event remotely only when no remote event with the same
(badge key, day) exists at that point: for any (key, day) with day a
10-character date, the remote match count grows by exactly one if it was
zero and some pending record for that key/day was pushed successfully, and
is unchanged otherwise — never a duplicate;
(3) inserts remotely every locally cached identity absent from the remote
store (whenever its remote call succeeds), while never dropping existing
remote identities or the cached identity tables themselves.
Pending records are assumed to carry an `nfc_id` and a full timestamp
(which `save_attendance` always writes). -/
theorem push_pending_properties (failA : Nat → Bool) (failS failT : List Char → Bool)
    (db : Database) (key day : List Char)
    (hconn : db.remoteOk = true)
    (hd : day.length = 10)
    (hrecs : ∀ r ∈ db.json.pending_attendance, r.nfc_id.isSome = true ∧ 10 ≤ r.date.length) :
    (push_pending_to_mongodb failA failS failT db).json.pending_attendance =
      ((db.json.pending_attendance.enumFrom 0).filter (fun q => failA q.1)).map
        (fun q => q.2) ∧
    countMatch (push_pending_to_mongodb failA failS failT db).remote.attendance key day =
      countMatch db.remote.attendance key day +
        (if countMatch db.remote.attendance key day = 0 ∧
            incomingFrom failA 0 db.json.pending_attendance key day = true
         then 1 else 0) ∧
    (push_pending_to_mongodb failA failS failT db).json.attendance = db.json.attendance ∧
    (push_pending_to_mongodb failA failS failT db).json.students = db.json.students ∧
    (push_pending_to_mongodb failA failS failT db).json.teachers = db.json.teachers ∧
    (∀ p ∈ db.remote.students,
      p ∈ (push_pending_to_mongodb failA failS failT db).remote.students) ∧
    (∀ p ∈ db.json.students, failS p.1 = false →
      ((push_pending_to_mongodb failA failS failT db).remote.students.any
        (fun q => q.1 == p.1)) = true) ∧
    (∀ p ∈ db.remote.teachers,
      p ∈ (push_pending_to_mongodb failA failS failT db).remote.teachers) ∧
    (∀ p ∈ db.json.teachers, failT p.1 = false →
      ((push_pending_to_mongodb failA failS failT db).remote.teachers.any
        (fun q => q.1 == p.1)) = true) := by
  unfold push_pending_to_mongodb
  rw [if_pos hconn]
  refine ⟨pushAttLoop_still failA db.json.pending_attendance 0 db.remote.attendance,
    pushAttLoop_count failA key day hd db.json.pending_attendance 0 db.remote.attendance hrecs,
    rfl, rfl, rfl,
    fun p hp => pushUsersLoop_mem_mono failS db.json.students db.remote.students p hp,
    fun p hp hfp => pushUsersLoop_covers failS db.json.students db.remote.students p hp hfp,
    fun p hp => pushUsersLoop_mem_mono failT db.json.teachers db.remote.teachers p hp,
    fun p hp hfp => pushUsersLoop_covers failT db.json.teachers db.remote.teachers p hp hfp⟩

/-- A connected database with two pending events for the same badge key and
day, a locally registered student the remote does not know, and an empty
remote attendance collection. -/
def exDB2 : Database :=
  { json := { students := [("S1".toList, {})],
              pending_attendance :=
                [{ nfc_id := some "A".toList, date := "2026-10-12 07:30:00".toList },
                 { nfc_id := some "A".toList, date := "2026-10-12 07:31:00".toList }] },
    remote := {},
    remoteOk := true }

/-- Witness for C2 where every remote call succeeds: both pending events
leave the queue, only one is inserted remotely, and the offline-registered
student reaches the remote store. -/
theorem push_pending_properties_witness :
    (push_pending_to_mongodb (fun _ => false) (fun _ => false) (fun _ => false)
        exDB2).json.pending_attendance =
      ((exDB2.json.pending_attendance.enumFrom 0).filter (fun q => (fun _ => false) q.1)).map
        (fun q => q.2) ∧
    countMatch (push_pending_to_mongodb (fun _ => false) (fun _ => false) (fun _ => false)
        exDB2).remote.attendance "A".toList "2026-10-12".toList =
      countMatch exDB2.remote.attendance "A".toList "2026-10-12".toList +
        (if countMatch exDB2.remote.attendance "A".toList "2026-10-12".toList = 0 ∧
            incomingFrom (fun _ => false) 0 exDB2.json.pending_attendance
              "A".toList "2026-10-12".toList = true
         then 1 else 0) ∧
    (push_pending_to_mongodb (fun _ => false) (fun _ => false) (fun _ => false)
        exDB2).json.attendance = exDB2.json.attendance ∧
    (push_pending_to_mongodb (fun _ => false) (fun _ => false) (fun _ => false)
        exDB2).json.students = exDB2.json.students ∧
    (push_pending_to_mongodb (fun _ => false) (fun _ => false) (fun _ => false)
        exDB2).json.teachers = exDB2.json.teachers ∧
    (∀ p ∈ exDB2.remote.students,
      p ∈ (push_pending_to_mongodb (fun _ => false) (fun _ => false) (fun _ => false)
        exDB2).remote.students) ∧
    (∀ p ∈ exDB2.json.students, (fun _ : List Char => false) p.1 = false →
      ((push_pending_to_mongodb (fun _ => false) (fun _ => false) (fun _ => false)
        exDB2).remote.students.any (fun q => q.1 == p.1)) = true) ∧
    (∀ p ∈ exDB2.remote.teachers,
      p ∈ (push_pending_to_mongodb (fun _ => false) (fun _ => false) (fun _ => false)
        exDB2).remote.teachers) ∧
    (∀ p ∈ exDB2.json.teachers, (fun _ : List Char => false) p.1 = false →
      ((push_pending_to_mongodb (fun _ => false) (fun _ => false) (fun _ => false)
        exDB2).remote.teachers.any (fun q => q.1 == p.1)) = true) :=
  push_pending_properties (fun _ => false) (fun _ => false) (fun _ => false) exDB2
    "A".toList "2026-10-12".toList rfl (by decide) (by decide)

/-! ### Claim C1 -/

lemma remoteMatch_mkAttRec (clock : Clock) (nfc name role : List Char)
    (pp : Option (List Char)) (ud : Option User) (st : List Char) :
    remoteMatch nfc clock.day (mkAttRec clock nfc name role pp ud st) = true := by
  simp [remoteMatch, mkAttRec, Clock.dateTime, startsWithL_self_append]

lemma localMatch_mkAttRec (clock : Clock) (nfc name role : List Char)
    (pp : Option (List Char)) (ud : Option User) (st : List Char)
    (hday : clock.day.length = 10) :
    localMatch nfc clock.day (mkAttRec clock nfc name role pp ud st) = true := by
  simp [localMatch, mkAttRec, recKey, Clock.dateTime,
    take_append_of_length (' ' :: clock.timeStr) hday]

/-- Claim C1: (a) if an attendance event for the badge key and today's
civil date is visible to the dedup check — in the remote store while the
remote is reachable, or in the cached attendance list or the pending queue
always — `save_attendance` returns `False` and writes nothing to any
store; (b) otherwise it persists exactly one new event: the per-day match
count rises by one in the remote store exactly when connected (mirrored
into the cached attendance list), or in the pending queue when not, and an
immediate second call the same day reports already-logged, returning
`False` with the state unchanged. -/
theorem save_attendance_once_per_day (db : Database) (clock : Clock)
    (nfc name role : List Char) (pp : Option (List Char)) (ud : Option User)
    (fetched : Option SchedData) (st : List Char)
    (hday : clock.day.length = 10)
    (hstat : calculate_attendance_status (sectOf ud) clock.timeStr fetched = some st) :
    (((db.remoteOk = true ∧ ∃ r ∈ db.remote.attendance, remoteMatch nfc clock.day r = true)
        ∨ (∃ r ∈ db.json.attendance, localMatch nfc clock.day r = true)
        ∨ (∃ r ∈ db.json.pending_attendance, localMatch nfc clock.day r = true)) →
      save_attendance db clock nfc name role pp ud fetched = some (db, false)) ∧
    (is_already_logged_today db clock nfc = false →
      ∃ db2, save_attendance db clock nfc name role pp ud fetched = some (db2, true) ∧
        countMatch db2.remote.attendance nfc clock.day =
          countMatch db.remote.attendance nfc clock.day +
            (if db.remoteOk = true then 1 else 0) ∧
        db2.json.attendance.countP (localMatch nfc clock.day) =
          (if db.remoteOk = true then 1 else 0) ∧
        db2.json.pending_attendance.countP (localMatch nfc clock.day) =
          (if db.remoteOk = true then 0 else 1) ∧
        is_already_logged_today db2 clock nfc = true ∧
        save_attendance db2 clock nfc name role pp ud fetched = some (db2, false)) := by
  constructor
  · intro hex
    have hlog : is_already_logged_today db clock nfc = true := by
      rcases hex with ⟨hok, r, hr, hm⟩ | ⟨r, hr, hm⟩ | ⟨r, hr, hm⟩
      · simp [is_already_logged_today, hok, List.any_eq_true.mpr ⟨r, hr, hm⟩]
      · simp [is_already_logged_today, List.any_eq_true.mpr ⟨r, hr, hm⟩]
      · simp [is_already_logged_today, List.any_eq_true.mpr ⟨r, hr, hm⟩]
    simp only [save_attendance, hlog, if_true]
  · intro hfresh
    have hcomp := hfresh
    simp only [is_already_logged_today] at hcomp
    rw [Bool.or_eq_false_iff, Bool.or_eq_false_iff] at hcomp
    obtain ⟨⟨hRc, hA⟩, hP⟩ := hcomp
    have hA0 : db.json.attendance.countP (localMatch nfc clock.day) = 0 :=
      (any_eq_false_iff_countP _ _).mp hA
    have hP0 : db.json.pending_attendance.countP (localMatch nfc clock.day) = 0 :=
      (any_eq_false_iff_countP _ _).mp hP
    by_cases hok : db.remoteOk = true
    · -- connected path: remote insert plus cache mirror
      have hR : db.remote.attendance.any (remoteMatch nfc clock.day) = false := by
        rcases Bool.and_eq_false_iff.mp hRc with h | h
        · rw [hok] at h; exact absurd h (by simp)
        · exact h
      have hR0 : countMatch db.remote.attendance nfc clock.day = 0 :=
        (any_eq_false_iff_countP _ _).mp hR
      refine ⟨{ db with
          remote := { db.remote with attendance :=
            db.remote.attendance ++ [mkAttRec clock nfc name role pp ud st] }
          json := { db.json with attendance :=
            db.json.attendance ++ [mkAttRec clock nfc name role pp ud st] } },
        ?_, ?_, ?_, ?_, ?_, ?_⟩
      · rw [save_attendance, hfresh]
        simp only [Bool.false_eq_true, if_false, hstat]
        rw [if_pos hok]
      · rw [countMatch_append, countMatch_single,
          if_pos (remoteMatch_mkAttRec clock nfc name role pp ud st), if_pos hok]
      · rw [List.countP_append, hA0, if_pos hok]
        simp [List.countP_cons, localMatch_mkAttRec clock nfc name role pp ud st hday]
      · rw [if_pos hok]; exact hP0
      · have hmem : mkAttRec clock nfc name role pp ud st ∈
            db.remote.attendance ++ [mkAttRec clock nfc name role pp ud st] :=
          List.mem_append_right _ (List.mem_singleton.mpr rfl)
        simp [is_already_logged_today, hok,
          List.any_eq_true.mpr ⟨_, hmem, remoteMatch_mkAttRec clock nfc name role pp ud st⟩]
      · have hlog2 : is_already_logged_today { db with
            remote := { db.remote with attendance :=
              db.remote.attendance ++ [mkAttRec clock nfc name role pp ud st] }
            json := { db.json with attendance :=
              db.json.attendance ++ [mkAttRec clock nfc name role pp ud st] } } clock nfc
              = true := by
          have hmem : mkAttRec clock nfc name role pp ud st ∈
              db.remote.attendance ++ [mkAttRec clock nfc name role pp ud st] :=
            List.mem_append_right _ (List.mem_singleton.mpr rfl)
          simp [is_already_logged_today, hok,
            List.any_eq_true.mpr ⟨_, hmem, remoteMatch_mkAttRec clock nfc name role pp ud st⟩]
        simp only [save_attendance, hlog2, if_true]
    · -- disconnected path: append to the pending queue
      have hok' : db.remoteOk = false := Bool.eq_false_iff.mpr hok
      refine ⟨{ db with
          json := { db.json with pending_attendance :=
            db.json.pending_attendance ++ [mkAttRec clock nfc name role pp ud st] } },
        ?_, ?_, ?_, ?_, ?_, ?_⟩
      · rw [save_attendance, hfresh]
        simp only [Bool.false_eq_true, if_false, hstat]
        rw [if_neg (by rw [hok']; exact Bool.false_ne_true)]
      · rw [if_neg hok]; rfl
      · rw [if_neg hok]; exact hA0
      · rw [List.countP_append, hP0, if_neg hok]
        simp [List.countP_cons, localMatch_mkAttRec clock nfc name role pp ud st hday]
      · have hmem : mkAttRec clock nfc name role pp ud st ∈
            db.json.pending_attendance ++ [mkAttRec clock nfc name role pp ud st] :=
          List.mem_append_right _ (List.mem_singleton.mpr rfl)
        simp [is_already_logged_today,
          List.any_eq_true.mpr ⟨_, hmem, localMatch_mkAttRec clock nfc name role pp ud st hday⟩]
      · have hlog2 : is_already_logged_today { db with
            json := { db.json with pending_attendance :=
              db.json.pending_attendance ++ [mkAttRec clock nfc name role pp ud st] } } clock nfc
              = true := by
          have hmem : mkAttRec clock nfc name role pp ud st ∈
              db.json.pending_attendance ++ [mkAttRec clock nfc name role pp ud st] :=
            List.mem_append_right _ (List.mem_singleton.mpr rfl)
          simp [is_already_logged_today,
            List.any_eq_true.mpr
              ⟨_, hmem, localMatch_mkAttRec clock nfc name role pp ud st hday⟩]
        simp only [save_attendance, hlog2, if_true]

/-- A remote attendance event for badge key A on 2026-10-12, with the
remote store unreachable and the cache empty. -/
def recR : AttRec := { nfc_id := some "A".toList, date := "2026-10-12 07:00:00".toList }

/-- The database exhibiting the C1 counterexample. -/
def exDB1 : Database :=
  { json := {}, remote := { attendance := [recR] }, remoteOk := false }

/-- The clock used by the C1 theorems. -/
def exClock1 : Clock :=
  { day := "2026-10-12".toList, timeStr := "08:00:00".toList, hour := 8 }

/-- Claim C1 counterexample: an attendance event for this badge key and
today's date exists in the remote store, yet with the remote unreachable
`save_attendance` does not return `False` — it succeeds and appends a
second event for the same key and day to the local pending queue, because
`is_already_logged_today` consults the remote store only while it is
reachable. -/
theorem save_attendance_remote_only_unseen :
    (∃ r ∈ exDB1.remote.attendance, remoteMatch "A".toList exClock1.day r = true) ∧
    save_attendance exDB1 exClock1 "A".toList "Ana".toList "student".toList
        none none none =
      some ({ exDB1 with json := { exDB1.json with pending_attendance :=
        [mkAttRec exClock1 "A".toList "Ana".toList "student".toList none none
          "late".toList] } }, true) := by
  constructor
  · exact ⟨recR, List.mem_singleton.mpr rfl, by decide⟩
  · decide

/-- Witness for the amended C1 on a concrete fresh scan. -/
theorem save_attendance_once_per_day_witness :
    (((exDB1.remoteOk = true ∧
        ∃ r ∈ exDB1.remote.attendance, remoteMatch "A".toList exClock1.day r = true)
        ∨ (∃ r ∈ exDB1.json.attendance, localMatch "A".toList exClock1.day r = true)
        ∨ (∃ r ∈ exDB1.json.pending_attendance, localMatch "A".toList exClock1.day r = true)) →
      save_attendance exDB1 exClock1 "A".toList "Ana".toList "student".toList
        none none none = some (exDB1, false)) ∧
    (is_already_logged_today exDB1 exClock1 "A".toList = false →
      ∃ db2, save_attendance exDB1 exClock1 "A".toList "Ana".toList "student".toList
          none none none = some (db2, true) ∧
        countMatch db2.remote.attendance "A".toList exClock1.day =
          countMatch exDB1.remote.attendance "A".toList exClock1.day +
            (if exDB1.remoteOk = true then 1 else 0) ∧
        db2.json.attendance.countP (localMatch "A".toList exClock1.day) =
          (if exDB1.remoteOk = true then 1 else 0) ∧
        db2.json.pending_attendance.countP (localMatch "A".toList exClock1.day) =
          (if exDB1.remoteOk = true then 0 else 1) ∧
        is_already_logged_today db2 exClock1 "A".toList = true ∧
        save_attendance db2 exClock1 "A".toList "Ana".toList "student".toList
          none none none = some (db2, false)) :=
  save_attendance_once_per_day exDB1 exClock1 "A".toList "Ana".toList "student".toList
    none none none "late".toList (by decide) (by decide)

end TamTap
